import Mathlib

/-!
Shallow embedding of the `ememdb_rs` in-memory document store
(`src/config.rs`, `src/db.rs`, `src/query.rs`, `src/lib.rs`) and proofs
about the claims of its specification.

Modelling conventions:
* `serde_json::Value` is embedded as `Json`; numbers are integer-valued
  (every numeric literal appearing in the claims is an integer, and
  `f64` equality on integer-valued doubles below 2^53 coincides with
  integer equality).
* `DashMap<String, _>` is embedded as an association list; iteration
  order is the list order (the store documents iteration order as
  unspecified).
* `SystemTime` is embedded as `Nat` (seconds); `SystemTime::now()`
  becomes an explicit `now : Nat` argument.
* Rust functions taking `&mut self` become functions returning the
  updated state next to the result value.
* `Uuid::new_v4()` becomes an explicit `freshUuid : String` argument.
-/

namespace Ememdb

/-- Embedding of `serde_json::Value`. Object fields are kept as an
association list; field order is a representation artifact (serde_json
stores objects in a map). -/
inductive Json where
  | null
  | bool (b : Bool)
  | num (n : Int)
  | str (s : String)
  | arr (elems : List Json)
  | obj (fields : List (String × Json))

mutual

def Json.decEq : (a b : Json) → Decidable (a = b)
  | .null, .null => .isTrue rfl
  | .null, .bool _ => .isFalse (fun h => Json.noConfusion h)
  | .null, .num _ => .isFalse (fun h => Json.noConfusion h)
  | .null, .str _ => .isFalse (fun h => Json.noConfusion h)
  | .null, .arr _ => .isFalse (fun h => Json.noConfusion h)
  | .null, .obj _ => .isFalse (fun h => Json.noConfusion h)
  | .bool _, .null => .isFalse (fun h => Json.noConfusion h)
  | .bool a, .bool b =>
    if h : a = b then .isTrue (by rw [h]) else .isFalse (fun hh => h (Json.bool.inj hh))
  | .bool _, .num _ => .isFalse (fun h => Json.noConfusion h)
  | .bool _, .str _ => .isFalse (fun h => Json.noConfusion h)
  | .bool _, .arr _ => .isFalse (fun h => Json.noConfusion h)
  | .bool _, .obj _ => .isFalse (fun h => Json.noConfusion h)
  | .num _, .null => .isFalse (fun h => Json.noConfusion h)
  | .num _, .bool _ => .isFalse (fun h => Json.noConfusion h)
  | .num a, .num b =>
    if h : a = b then .isTrue (by rw [h]) else .isFalse (fun hh => h (Json.num.inj hh))
  | .num _, .str _ => .isFalse (fun h => Json.noConfusion h)
  | .num _, .arr _ => .isFalse (fun h => Json.noConfusion h)
  | .num _, .obj _ => .isFalse (fun h => Json.noConfusion h)
  | .str _, .null => .isFalse (fun h => Json.noConfusion h)
  | .str _, .bool _ => .isFalse (fun h => Json.noConfusion h)
  | .str _, .num _ => .isFalse (fun h => Json.noConfusion h)
  | .str a, .str b =>
    if h : a = b then .isTrue (by rw [h]) else .isFalse (fun hh => h (Json.str.inj hh))
  | .str _, .arr _ => .isFalse (fun h => Json.noConfusion h)
  | .str _, .obj _ => .isFalse (fun h => Json.noConfusion h)
  | .arr _, .null => .isFalse (fun h => Json.noConfusion h)
  | .arr _, .bool _ => .isFalse (fun h => Json.noConfusion h)
  | .arr _, .num _ => .isFalse (fun h => Json.noConfusion h)
  | .arr _, .str _ => .isFalse (fun h => Json.noConfusion h)
  | .arr a, .arr b =>
    match Json.decEqList a b with
    | .isTrue h => .isTrue (by rw [h])
    | .isFalse h => .isFalse (fun hh => h (Json.arr.inj hh))
  | .arr _, .obj _ => .isFalse (fun h => Json.noConfusion h)
  | .obj _, .null => .isFalse (fun h => Json.noConfusion h)
  | .obj _, .bool _ => .isFalse (fun h => Json.noConfusion h)
  | .obj _, .num _ => .isFalse (fun h => Json.noConfusion h)
  | .obj _, .str _ => .isFalse (fun h => Json.noConfusion h)
  | .obj _, .arr _ => .isFalse (fun h => Json.noConfusion h)
  | .obj a, .obj b =>
    match Json.decEqFields a b with
    | .isTrue h => .isTrue (by rw [h])
    | .isFalse h => .isFalse (fun hh => h (Json.obj.inj hh))

def Json.decEqList : (a b : List Json) → Decidable (a = b)
  | [], [] => .isTrue rfl
  | [], _ :: _ => .isFalse (fun h => List.noConfusion h)
  | _ :: _, [] => .isFalse (fun h => List.noConfusion h)
  | x :: xs, y :: ys =>
    match Json.decEq x y with
    | .isTrue h1 =>
      match Json.decEqList xs ys with
      | .isTrue h2 => .isTrue (by rw [h1, h2])
      | .isFalse h2 => .isFalse (fun hh => h2 (List.cons.inj hh).2)
    | .isFalse h1 => .isFalse (fun hh => h1 (List.cons.inj hh).1)

def Json.decEqFields : (a b : List (String × Json)) → Decidable (a = b)
  | [], [] => .isTrue rfl
  | [], _ :: _ => .isFalse (fun h => List.noConfusion h)
  | _ :: _, [] => .isFalse (fun h => List.noConfusion h)
  | (k1, v1) :: xs, (k2, v2) :: ys =>
    if hk : k1 = k2 then
      match Json.decEq v1 v2 with
      | .isTrue h1 =>
        match Json.decEqFields xs ys with
        | .isTrue h2 => .isTrue (by rw [hk, h1, h2])
        | .isFalse h2 => .isFalse (fun hh => h2 (List.cons.inj hh).2)
      | .isFalse h1 =>
        .isFalse (fun hh => h1 (congrArg Prod.snd (List.cons.inj hh).1))
    else .isFalse (fun hh => hk (congrArg Prod.fst (List.cons.inj hh).1))

end

instance : DecidableEq Json := Json.decEq

/-- Association-list lookup, the embedding of map lookup on
`DashMap<String, α>` and on `serde_json` object maps. -/
def alistLookup {α : Type} (k : String) : List (String × α) → Option α
  | [] => none
  | (k', v) :: rest => if k' = k then some v else alistLookup k rest

/-- Association-list insert-or-replace, the embedding of `map.insert`:
an existing binding is replaced in place, a new one is appended. -/
def alistInsert {α : Type} (k : String) (v : α) : List (String × α) → List (String × α)
  | [] => [(k, v)]
  | (k', v') :: rest => if k' = k then (k, v) :: rest else (k', v') :: alistInsert k v rest

/-- Association-list removal, the embedding of `map.remove`: returns the
removed value (if any) and the remaining list. -/
def alistRemove {α : Type} (k : String) : List (String × α) → Option α × List (String × α)
  | [] => (none, [])
  | (k', v) :: rest =>
    if k' = k then (some v, rest)
    else
      let r := alistRemove k rest
      (r.1, (k', v) :: r.2)

/-- Embedding of `serde_json::Value::get(&str)`: field lookup on objects,
`None` on every other variant. -/
def Json.get : Json → String → Option Json
  | .obj fields, k => alistLookup k fields
  | _, _ => none

/-- Embedding of serde_json index assignment `value[key] = v`: inserts on
objects, turns `null` into a one-field object (serde_json behavior); on the
remaining variants serde_json panics, which no modelled code path reaches,
so they are left unchanged. -/
def Json.set : Json → String → Json → Json
  | .obj fields, k, v => .obj (alistInsert k v fields)
  | .null, k, v => .obj [(k, v)]
  | j, _, _ => j

/-- Embedding of Rust `str::split(',')`: splits at every comma; the empty
string yields one empty piece, as in Rust. -/
def splitCommaAux : List Char → List Char → List String
  | [], acc => [String.mk acc.reverse]
  | c :: rest, acc =>
    if c = ',' then String.mk acc.reverse :: splitCommaAux rest []
    else splitCommaAux rest (c :: acc)

def splitComma (s : String) : List String :=
  splitCommaAux s.data []

/-- Embedding of Rust `str::trim`: strips whitespace from both ends
(ASCII whitespace; the claims use none of the further Unicode cases). -/
def trimChars (s : String) : String :=
  String.mk (((s.data.dropWhile Char.isWhitespace).reverse.dropWhile Char.isWhitespace).reverse)

/-- Decimal digit accumulation of a character list. -/
def digitsToNat (l : List Char) : Nat :=
  l.foldl (fun a c => a * 10 + (c.toNat - 48)) 0

/-- Embedding of Rust `str::parse::<f64>()` restricted to decimal integer
literals (every compare value reaching this parser in the claims is either
a decimal integer string or a non-numeric string; fractional and exponent
forms are not modelled). -/
def parseNumber? (s : String) : Option Int :=
  match s.data with
  | [] => none
  | '-' :: rest =>
    if !rest.isEmpty && rest.all Char.isDigit then some (-(digitsToNat rest : Int)) else none
  | l =>
    if l.all Char.isDigit then some ((digitsToNat l : Int)) else none

/-- Decimal digit list of `n` (most significant first), driven by an
explicit fuel argument so that it is structurally recursive; `fuel = n`
is always enough since `n / 10 < n` for `n > 0`. -/
def natDigitsAux : Nat → Nat → List Char
  | 0, _ => []
  | fuel + 1, n =>
    if n = 0 then [] else natDigitsAux fuel (n / 10) ++ [Nat.digitChar (n % 10)]

/-- Embedding of Rust `u64::to_string()`: decimal rendering of a natural
number. -/
def natToDecimal (n : Nat) : String :=
  if n = 0 then "0" else String.mk (natDigitsAux n n)

theorem digitChar_toNat {d : Nat} (h : d < 10) : (Nat.digitChar d).toNat = 48 + d := by
  interval_cases d <;> rfl

theorem digitsToNat_append (l1 l2 : List Char) :
    digitsToNat (l1 ++ l2) =
      l2.foldl (fun a c => a * 10 + (c.toNat - 48)) (digitsToNat l1) := by
  simp [digitsToNat, List.foldl_append]

theorem digitsToNat_natDigitsAux :
    ∀ fuel n, n ≤ fuel → digitsToNat (natDigitsAux fuel n) = n := by
  intro fuel
  induction fuel with
  | zero => intro n hn; interval_cases n; simp [natDigitsAux, digitsToNat]
  | succ f ih =>
    intro n hn
    by_cases h0 : n = 0
    · simp [natDigitsAux, h0, digitsToNat]
    · have hdiv : n / 10 ≤ f := by
        have : n / 10 < n := Nat.div_lt_self (Nat.pos_of_ne_zero h0) (by omega)
        omega
      have hmod : n % 10 < 10 := Nat.mod_lt _ (by omega)
      simp only [natDigitsAux, h0, if_false]
      rw [digitsToNat_append, ih _ hdiv]
      simp [digitChar_toNat hmod]
      omega

theorem natToDecimal_injective : Function.Injective natToDecimal := by
  intro a b h
  unfold natToDecimal at h
  by_cases ha : a = 0 <;> by_cases hb : b = 0 <;> simp [ha, hb] at h ⊢
  · -- a = 0, b ≠ 0 : "0" = digits of b, so b = digitsToNat ['0'] = 0
    have hval := congrArg (fun s => digitsToNat s.data) h
    simp only [digitsToNat_natDigitsAux b b le_rfl] at hval
    simp [digitsToNat] at hval
    omega
  · have hval := congrArg (fun s => digitsToNat s.data) h
    simp only [digitsToNat_natDigitsAux a a le_rfl] at hval
    simp [digitsToNat] at hval
    omega
  · have hdata : natDigitsAux a a = natDigitsAux b b := congrArg String.data h
    have := congrArg digitsToNat hdata
    rwa [digitsToNat_natDigitsAux a a le_rfl, digitsToNat_natDigitsAux b b le_rfl] at this

/-- Embedding of `config.rs` `TTL`. -/
inductive TTL where
  | noTTL
  | globalTTL (seconds : Nat)
  | customTTL (seconds : Nat)
deriving DecidableEq

/-- Embedding of `config.rs` `KeyType`. -/
inductive KeyType where
  | increment
  | uuid
  | string
  | custom
deriving DecidableEq

/-- Embedding of `db.rs` `OperationResult`. -/
inductive OperationResult where
  | inserted (id : String) (document : Json)
  | updated (id : String) (old_document new_document : Json)
  | deleted (id : String) (document : Json)
deriving DecidableEq

/-- Embedding of `db.rs` `DocumentEntry`; `expiration = none` means no TTL. -/
structure DocumentEntry where
  value : Json
  expiration : Option Nat
deriving DecidableEq

/-- Embedding of `db.rs` `Collection`. `next_id` is the `u64` increment
counter, embedded as `Nat` (Rust's checked arithmetic makes a wrapped
counter unreachable from any successful insert). -/
structure Collection where
  documents : List (String × DocumentEntry)
  key_field : Option String
  key_type : KeyType
  unique_keys : List String
  next_id : Nat
deriving DecidableEq

/-- The TTL match performed by both `insert` and `upsert` in `db.rs`
(lines 101-105 and 138-142): `GlobalTTL(s)`/`CustomTTL(s)` give
`now + s`, `NoTTL`/absent give no expiration. -/
def resolveTTL : Option TTL → Nat → Option Nat
  | some (.globalTTL s), now => some (now + s)
  | some (.customTTL s), now => some (now + s)
  | some .noTTL, _ => none
  | none, _ => none

/-- Key generation of `Collection::insert` (db.rs lines 80-93): under
`Increment` the counter is bumped first and its new value rendered in
decimal; under `UUID` the fresh uuid is used; under `String`/`Custom` the
key field is read from the document and must be a string. -/
def Collection.keyGen (c : Collection) (key_field : String) (document : Json)
    (freshUuid : String) : Except String (String × Collection) :=
  match c.key_type with
  | .increment => .ok (natToDecimal (c.next_id + 1), { c with next_id := c.next_id + 1 })
  | .uuid => .ok (freshUuid, c)
  | .string | .custom =>
    match document.get key_field with
    | none => .error (key_field ++ " field not found in the document.")
    | some (.str s) => .ok (s, c)
    | some _ => .error (key_field ++ " is not a string.")

/-- The uniqueness scan of `Collection::insert` (db.rs lines 107-114):
the first field of `unique_keys` that is present on the incoming document
and whose value some stored entry also carries. The scan reads only
`value`, never `expiration`. -/
def firstDuplicateKey (docs : List (String × DocumentEntry)) (uniqueKeys : List String)
    (document : Json) : Option String :=
  uniqueKeys.find? fun k =>
    match document.get k with
    | some v => docs.any fun p => p.2.value.get k == some v
    | none => false

/-- Embedding of `Collection::insert` (db.rs lines 75-122). -/
def Collection.insert (c : Collection) (document : Json) (ttl : Option TTL)
    (now : Nat) (freshUuid : String) : Except String OperationResult × Collection :=
  match c.key_field with
  | none => (.error "Key field is not set.", c)
  | some key_field =>
    match c.keyGen key_field document freshUuid with
    | .error e => (.error e, c)
    | .ok (doc_id, c1) =>
      let document :=
        if c.key_type = .increment ∨ c.key_type = .uuid then
          document.set key_field (.str doc_id)
        else document
      let expiration := resolveTTL ttl now
      match firstDuplicateKey c1.documents c.unique_keys document with
      | some k => (.error ("Duplicate value for unique key: " ++ k), c1)
      | none =>
        (.ok (.inserted doc_id document),
          { c1 with documents := alistInsert doc_id ⟨document, expiration⟩ c1.documents })

/-- Embedding of `Collection::upsert` (db.rs lines 124-155): if the key
field's value names an existing entry the document and the expiration
(recomputed from `ttl`) are overwritten, otherwise `insert` is called. -/
def Collection.upsert (c : Collection) (document : Json) (ttl : Option TTL)
    (now : Nat) (freshUuid : String) : Except String OperationResult × Collection :=
  match c.key_field with
  | none => (.error "Key field is not set.", c)
  | some key_field =>
    match document.get key_field with
    | none => (.error (key_field ++ " field not found in the document."), c)
    | some (.str doc_id) =>
      match alistLookup doc_id c.documents with
      | some entry =>
        let expiration := resolveTTL ttl now
        (.ok (.updated doc_id entry.value document),
          { c with documents := alistInsert doc_id ⟨document, expiration⟩ c.documents })
      | none => c.insert document ttl now freshUuid
    | some _ => (.error (key_field ++ " is not a string."), c)

/-- Embedding of `Collection::update` (db.rs lines 156-174): replaces the
stored entry's `value` in place; `expiration` is not touched. -/
def Collection.update (c : Collection) (document : Json) :
    Except String OperationResult × Collection :=
  match c.key_field with
  | none => (.error "Key field is not set.", c)
  | some key_field =>
    match document.get key_field with
    | none => (.error "Key field not found in the document.", c)
    | some (.str doc_id) =>
      match alistLookup doc_id c.documents with
      | some entry =>
        (.ok (.updated doc_id entry.value document),
          { c with documents := alistInsert doc_id ⟨document, entry.expiration⟩ c.documents })
      | none => (.error "Document not found.", c)
    | some _ => (.error "Key value is not a string.", c)

/-- Embedding of `Collection::delete` (db.rs lines 176-185). -/
def Collection.delete (c : Collection) (key : String) :
    Except String OperationResult × Collection :=
  match alistLookup key c.documents with
  | some entry =>
    (.ok (.deleted key entry.value), { c with documents := (alistRemove key c.documents).2 })
  | none => (.error "Document not found.", c)

/-- Escaping of one character inside a JSON string literal, as performed
by serde_json's serializer (quote, backslash and the common control
characters; the remaining control characters, which serde_json renders as
unicode escapes, occur in no claim). -/
def escapeJsonChar (c : Char) : String :=
  if c = '"' then "\\\""
  else if c = '\\' then "\\\\"
  else if c = '\n' then "\\n"
  else if c = '\t' then "\\t"
  else if c = '\r' then "\\r"
  else String.mk [c]

def escapeJson (s : String) : String :=
  String.join (s.data.map escapeJsonChar)

/-- Decimal rendering of an `i64`/`u64`-valued number. -/
def intRender : Int → String
  | .ofNat n => natToDecimal n
  | .negSucc n => "-" ++ natToDecimal (n + 1)

mutual

/-- Embedding of `serde_json::Value::to_string()` (the `Display`
serialization to compact JSON text): in particular a string value is
rendered WITH its surrounding quotes. -/
def Json.render : Json → String
  | .null => "null"
  | .bool true => "true"
  | .bool false => "false"
  | .num n => intRender n
  | .str s => "\"" ++ escapeJson s ++ "\""
  | .arr xs => "[" ++ Json.renderArr xs ++ "]"
  | .obj fs => "\x7b" ++ Json.renderObj fs ++ "\x7d"

def Json.renderArr : List Json → String
  | [] => ""
  | [x] => Json.render x
  | x :: y :: rest => Json.render x ++ "," ++ Json.renderArr (y :: rest)

def Json.renderObj : List (String × Json) → String
  | [] => ""
  | [(k, v)] => "\"" ++ escapeJson k ++ "\":" ++ Json.render v
  | (k, v) :: y :: rest =>
    "\"" ++ escapeJson k ++ "\":" ++ Json.render v ++ "," ++ Json.renderObj (y :: rest)

end

/-- The predicate pushed by `QueryBuilder::eq` (query.rs lines 189-205):
a numeric field matches when the compare string parses as a number and is
equal; a string field matches on string equality; a missing field and
every other value variant (including a numeric field with an unparseable
compare string) yield `false`. -/
def eqFilter (key value : String) (doc : Json) : Bool :=
  match doc.get key with
  | some (.num n) =>
    match parseNumber? value with
    | some compare_val => n == compare_val
    | none => false
  | some (.str s) => s == value
  | some _ => false
  | none => false

/-- The predicate pushed by `QueryBuilder::neq` (query.rs lines 207-223):
the dual of `eqFilter`, except that a missing field, a non-number
non-string value, and a numeric field with an unparseable compare string
all yield `true`. -/
def neqFilter (key value : String) (doc : Json) : Bool :=
  match doc.get key with
  | some (.num n) =>
    match parseNumber? value with
    | some compare_val => n != compare_val
    | none => true
  | some (.str s) => s != value
  | some _ => true
  | none => true

/-- Embedding of `query.rs` `QueryBuilder`. Filters are embedded as Lean
predicates. The success/error observer callbacks are opaque boxed
closures in the source; they are embedded as opaque identifiers
(`Option Nat`), and `execute` reports the identifiers of the callbacks it
invokes. Each join registered through `QueryBuilder::join` is a closure
that ignores all five of its arguments and returns the document list
produced by its captured `JoinBuilder`, so it is embedded as that list. -/
structure QueryBuilder where
  collection : Collection
  filters : List (Json → Bool)
  selected_fields : List String
  success_callback : Option Nat
  error_callback : Option Nat
  joins : List (List Json)

def QueryBuilder.new (collection : Collection) : QueryBuilder :=
  { collection := collection, filters := [], selected_fields := [],
    success_callback := none, error_callback := none, joins := [] }

def QueryBuilder.select (qb : QueryBuilder) (fields : List String) : QueryBuilder :=
  { qb with selected_fields := fields }

def QueryBuilder.eq (qb : QueryBuilder) (key value : String) : QueryBuilder :=
  { qb with filters := qb.filters ++ [eqFilter key value] }

def QueryBuilder.neq (qb : QueryBuilder) (key value : String) : QueryBuilder :=
  { qb with filters := qb.filters ++ [neqFilter key value] }

def QueryBuilder.on_success (qb : QueryBuilder) (callback : Nat) : QueryBuilder :=
  { qb with success_callback := some callback }

def QueryBuilder.on_fail (qb : QueryBuilder) (callback : Nat) : QueryBuilder :=
  { qb with error_callback := some callback }

def QueryBuilder.filter (qb : QueryBuilder) (f : Json → Bool) : QueryBuilder :=
  { qb with filters := qb.filters ++ [f] }

/-- The projection loop of `QueryBuilder::execute` (query.rs lines
397-405): starting from an empty object, each selected field present on
the source document is copied over; missing fields are skipped. -/
def selectDoc (fields : List String) (doc : Json) : Json :=
  fields.foldl
    (fun acc field =>
      match doc.get field with
      | some v => acc.set field v
      | none => acc)
    (.obj [])

/-- The join-merge step of `QueryBuilder::execute` (query.rs lines
384-390): every field of the joined document is copied into the existing
document (`as_object().unwrap()` panics on a non-object joined document;
no modelled code path reaches that case, which leaves the document
unchanged here). -/
def combineJoin (existing joined : Json) : Json :=
  match joined with
  | .obj fs => fs.foldl (fun acc kv => acc.set kv.1 kv.2) existing
  | _ => existing

/-- Embedding of `QueryBuilder::execute` (query.rs lines 368-413). The
first component is the returned `Result`; the second lists, in order, the
identifiers of the observer callbacks the body invokes — the body reads
only `filters`, `joins` and `selected_fields` and contains no call to
`success_callback` or `error_callback`, so the list is empty. -/
def QueryBuilder.execute (qb : QueryBuilder) : Except String (List Json) × List Nat :=
  let results := qb.collection.documents.foldl
    (fun results p =>
      let doc_value := p.2.value
      if qb.filters.all (fun f => f doc_value) then
        let joined_docs := [doc_value]
        let joined_docs := qb.joins.foldl
          (fun jds new_joined_docs =>
            jds.flatMap fun existing_doc =>
              if new_joined_docs.isEmpty then [existing_doc]
              else new_joined_docs.map fun joined_doc => combineJoin existing_doc joined_doc)
          joined_docs
        let joined_docs :=
          if qb.selected_fields.isEmpty then joined_docs
          else joined_docs.map (selectDoc qb.selected_fields)
        results ++ joined_docs
      else results)
    []
  (.ok results, [])

/-- Embedding of `Collection::select` (db.rs lines 189-196): `"*"`, the
empty string and a single blank select all fields, anything else is split
at commas and trimmed. -/
def Collection.select (c : Collection) (fields : String) : QueryBuilder :=
  if fields = "*" ∨ fields = "" ∨ fields = " " then
    (QueryBuilder.new c).select []
  else
    (QueryBuilder.new c).select ((splitComma fields).map trimChars)

/-- Model of `Result::unwrap()` on a `QueryBuilder::execute` result: the
error branch panics in Rust; it is unreachable because `execute` always
returns `Ok`. -/
def unwrapOk : Except String (List Json) → List Json
  | .ok docs => docs
  | .error _ => []

/-- Embedding of `query.rs` `JoinBuilder`. -/
structure JoinBuilder where
  src_collection : Collection
  target_collection : Collection
  src_key : String
  target_key : String
  filters : List (Json → Bool)
  selected_fields : List String
  map_function : Option (Json → Json)

def JoinBuilder.new (src_collection target_collection : Collection) : JoinBuilder :=
  { src_collection := src_collection, target_collection := target_collection,
    src_key := "", target_key := "", filters := [], selected_fields := [],
    map_function := none }

/-- Embedding of `JoinBuilder::select` (query.rs lines 36-43): `"*"`
clears the selection, anything else — including the empty string — is
split at commas and trimmed. -/
def JoinBuilder.select (jb : JoinBuilder) (fields : String) : JoinBuilder :=
  if fields = "*" then { jb with selected_fields := [] }
  else { jb with selected_fields := (splitComma fields).map trimChars }

def JoinBuilder.on (jb : JoinBuilder) (src_key target_key : String) : JoinBuilder :=
  { jb with src_key := src_key, target_key := target_key }

/-- Embedding of `JoinBuilder::execute` (query.rs lines 109-146). For
each source document, the target collection is queried with
`eq(target_key, src_value.to_string())` — note the JSON rendering — and
the first result, if any, has its fields copied under `joined_` keys,
restricted to the selection when one was given; with no match, selected
fields are attached as `joined_<field> = null`. -/
def JoinBuilder.execute (jb : JoinBuilder) : List Json :=
  let src_docs := unwrapOk ((jb.src_collection.select "*").execute).1
  src_docs.foldl
    (fun results src_doc =>
      let joined_doc := src_doc
      let joined_doc :=
        match src_doc.get jb.src_key with
        | some src_value =>
          let target_docs :=
            unwrapOk (((jb.target_collection.select "*").eq jb.target_key
              src_value.render).execute).1
          match target_docs.head? with
          | some target_doc =>
            match target_doc with
            | .obj fs =>
              fs.foldl
                (fun jd kv =>
                  if jb.selected_fields.isEmpty ∨ kv.1 ∈ jb.selected_fields then
                    jd.set ("joined_" ++ kv.1) kv.2
                  else jd)
                joined_doc
            | _ => joined_doc
          | none =>
            jb.selected_fields.foldl
              (fun jd field => jd.set ("joined_" ++ field) Json.null) joined_doc
        | none => joined_doc
      if jb.filters.all (fun f => f joined_doc) then
        let joined_doc :=
          match jb.map_function with
          | some f => f joined_doc
          | none => joined_doc
        results ++ [joined_doc]
      else results)
    []

/-- Embedding of the `Collection` type of `lib.rs` (a second, independent
collection type in the repository, distinct from the one in `db.rs`);
renamed to avoid the clash. -/
structure LibCollection where
  documents : List (String × DocumentEntry)
deriving DecidableEq

/-- Embedding of `lib.rs` `Collection::get` (lines 122-133): an entry
whose expiration is strictly in the past is removed and absent is
returned; otherwise the value is returned and the storage untouched. -/
def LibCollection.get (c : LibCollection) (doc_id : String) (now : Nat) :
    Option Json × LibCollection :=
  match alistLookup doc_id c.documents with
  | some entry =>
    match entry.expiration with
    | some expiration =>
      if now > expiration then
        (none, { documents := (alistRemove doc_id c.documents).2 })
      else (some entry.value, c)
    | none => (some entry.value, c)
  | none => (none, c)

/-- One mutating operation on a collection, with the ambient inputs
(`now`, fresh uuid) that the Rust code draws from the environment. -/
inductive Op where
  | ins (document : Json) (ttl : Option TTL) (now : Nat) (freshUuid : String)
  | ups (document : Json) (ttl : Option TTL) (now : Nat) (freshUuid : String)
  | upd (document : Json)
  | del (key : String)

/-- Applies one operation; the optional second component is the identity
reported by a successful insert (directly or through upsert's insert
branch). -/
def applyOp (c : Collection) : Op → Collection × Option String
  | .ins document ttl now freshUuid =>
    match c.insert document ttl now freshUuid with
    | (.ok (.inserted id _), c') => (c', some id)
    | (_, c') => (c', none)
  | .ups document ttl now freshUuid =>
    match c.upsert document ttl now freshUuid with
    | (.ok (.inserted id _), c') => (c', some id)
    | (_, c') => (c', none)
  | .upd document => ((c.update document).2, none)
  | .del key => ((c.delete key).2, none)

/-- Runs a sequence of operations, collecting the identities of the
successful inserts in order. -/
def runOps (c : Collection) : List Op → Collection × List String
  | [] => (c, [])
  | op :: rest =>
    let step := applyOp c op
    let r := runOps step.1 rest
    (r.1, step.2.toList ++ r.2)

/-! ### Helper lemmas -/

theorem alistLookup_alistInsert_self {α : Type} (k : String) (v : α) (l : List (String × α)) :
    alistLookup k (alistInsert k v l) = some v := by
  induction l with
  | nil => simp [alistLookup, alistInsert]
  | cons x rest ih =>
    by_cases h : x.1 = k
    · simp [alistInsert, alistLookup, h]
    · simp [alistInsert, alistLookup, h, ih]

theorem alistLookup_alistInsert_ne {α : Type} (k k' : String) (v : α) (l : List (String × α))
    (h : k' ≠ k) : alistLookup k' (alistInsert k v l) = alistLookup k' l := by
  induction l with
  | nil =>
    simp only [alistInsert, alistLookup]
    rw [if_neg (fun hh => h hh.symm)]
  | cons x rest ih =>
    by_cases hx : x.1 = k
    · simp only [alistInsert, hx, if_true, alistLookup]
      have : ¬(k = k') := fun hh => h hh.symm
      simp [this, hx, alistLookup]
    · simp [alistInsert, hx, alistLookup, ih]

theorem foldl_append_singleton {α : Type} (g : α → Json) :
    ∀ (docs : List α) (acc : List Json),
      docs.foldl (fun results p => results ++ [g p]) acc = acc ++ docs.map g := by
  intro docs
  induction docs with
  | nil => intro acc; simp
  | cons x xs ih => intro acc; simp [ih]

/-- `execute` on a builder fresh from `QueryBuilder::new` plus a
selection: every stored document (regardless of expiration) is visited,
kept, and projected when a selection is present. -/
theorem execute_new_select (col : Collection) (sel : List String) :
    ((QueryBuilder.new col).select sel).execute
      = (.ok (col.documents.map
          (fun p => if sel.isEmpty then p.2.value else selectDoc sel p.2.value)), []) := by
  by_cases hs : sel.isEmpty <;>
    simp [QueryBuilder.execute, QueryBuilder.new, QueryBuilder.select, hs,
      foldl_append_singleton]

theorem selectDoc_go (d : Json) (fields : List String) (fs : List (String × Json)) (k : String) :
    (fields.foldl
        (fun acc field =>
          match d.get field with
          | some v => acc.set field v
          | none => acc)
        (Json.obj fs)).get k
      = match d.get k with
        | some v => if k ∈ fields then some v else alistLookup k fs
        | none => alistLookup k fs := by
  induction fields generalizing fs with
  | nil => cases d.get k <;> simp [Json.get]
  | cons f rest ih =>
    simp only [List.foldl_cons]
    cases hf : d.get f with
    | none =>
      dsimp only
      rw [ih]
      cases hk : d.get k with
      | none => rfl
      | some v =>
        by_cases hkf : k = f
        · rw [hkf] at hk; rw [hk] at hf; exact absurd hf (by simp)
        · simp [List.mem_cons, hkf]
    | some v =>
      dsimp only
      rw [show (Json.obj fs).set f v = Json.obj (alistInsert f v fs) from rfl]
      rw [ih]
      cases hk : d.get k with
      | none =>
        have hkf : k ≠ f := fun hh => by rw [hh, hf] at hk; exact Option.noConfusion hk
        exact alistLookup_alistInsert_ne f k v fs hkf
      | some w =>
        by_cases hkf : k = f
        · subst hkf
          rw [hf] at hk
          cases hk
          by_cases hmem : k ∈ rest
          · simp [hmem]
          · simp [hmem, alistLookup_alistInsert_self]
        · by_cases hmem : k ∈ rest
          · simp [hmem, hkf]
          · simp [hmem, hkf, alistLookup_alistInsert_ne f k v fs hkf]

/-- Extensional description of the projection: the output carries a field
`k` exactly when `k` was selected and present on the source document. -/
theorem selectDoc_get (d : Json) (fields : List String) (k : String) :
    (selectDoc fields d).get k = if k ∈ fields then d.get k else none := by
  unfold selectDoc
  rw [selectDoc_go]
  cases hk : d.get k with
  | none => simp [alistLookup]
  | some v => simp [alistLookup]

theorem keyGen_state (c : Collection) (kf : String) (document : Json) (u : String)
    (doc_id : String) (c1 : Collection) (h : c.keyGen kf document u = .ok (doc_id, c1)) :
    c1.key_type = c.key_type ∧ c1.key_field = c.key_field ∧
      c1.unique_keys = c.unique_keys ∧ c1.documents = c.documents ∧
      c.next_id ≤ c1.next_id := by
  unfold Collection.keyGen at h
  cases hk : c.key_type with
  | increment =>
    simp only [hk, Except.ok.injEq, Prod.mk.injEq] at h
    obtain ⟨h1, h2⟩ := h
    subst h2
    simp [hk]
  | uuid =>
    simp only [hk, Except.ok.injEq, Prod.mk.injEq] at h
    obtain ⟨h1, h2⟩ := h
    subst h2
    simp [hk]
  | string =>
    simp only [hk] at h
    cases hg : document.get kf with
    | none => simp [hg] at h
    | some v =>
      simp only [hg] at h
      cases v <;> simp_all
  | custom =>
    simp only [hk] at h
    cases hg : document.get kf with
    | none => simp [hg] at h
    | some v =>
      simp only [hg] at h
      cases v <;> simp_all

theorem insert_state (c : Collection) (document : Json) (ttl : Option TTL)
    (now : Nat) (u : String) :
    (c.insert document ttl now u).2.key_type = c.key_type ∧
      c.next_id ≤ (c.insert document ttl now u).2.next_id := by
  unfold Collection.insert
  split
  · simp
  · next kf hkf =>
    split
    · simp
    · next doc_id c1 heq =>
      have hk := keyGen_state c kf document u doc_id c1 heq
      dsimp only
      split <;> simp_all

theorem insert_key_type (c : Collection) (document : Json) (ttl : Option TTL)
    (now : Nat) (u : String) : (c.insert document ttl now u).2.key_type = c.key_type :=
  (insert_state c document ttl now u).1

theorem insert_next_id_mono (c : Collection) (document : Json) (ttl : Option TTL)
    (now : Nat) (u : String) : c.next_id ≤ (c.insert document ttl now u).2.next_id :=
  (insert_state c document ttl now u).2

theorem insert_increment_ok (c : Collection) (document : Json) (ttl : Option TTL)
    (now : Nat) (u : String) (hk : c.key_type = KeyType.increment) (id : String) (d : Json)
    (h : (c.insert document ttl now u).1 = .ok (.inserted id d)) :
    id = natToDecimal (c.next_id + 1) ∧
      (c.insert document ttl now u).2.next_id = c.next_id + 1 := by
  unfold Collection.insert Collection.keyGen at h ⊢
  rw [hk] at h ⊢
  cases hkf : c.key_field with
  | none => rw [hkf] at h; exact absurd h (by simp)
  | some kf =>
    rw [hkf] at h
    dsimp only at h ⊢
    rw [if_pos (Or.inl rfl)] at h ⊢
    split at h
    · exact absurd h (by simp)
    · next heq =>
      simp only [Except.ok.injEq, OperationResult.inserted.injEq] at h
      exact ⟨h.1.symm, rfl⟩

theorem upsert_key_type (c : Collection) (document : Json) (ttl : Option TTL)
    (now : Nat) (u : String) : (c.upsert document ttl now u).2.key_type = c.key_type := by
  unfold Collection.upsert
  cases hkf : c.key_field with
  | none => rfl
  | some kf =>
    dsimp only
    cases hget : document.get kf with
    | none => rfl
    | some v =>
      cases v with
      | str doc_id =>
        dsimp only
        cases hl : alistLookup doc_id c.documents with
        | some e => rfl
        | none => exact insert_key_type _ _ _ _ _
      | null => rfl
      | bool b => rfl
      | num n => rfl
      | arr xs => rfl
      | obj fs => rfl

theorem upsert_next_id_mono (c : Collection) (document : Json) (ttl : Option TTL)
    (now : Nat) (u : String) : c.next_id ≤ (c.upsert document ttl now u).2.next_id := by
  unfold Collection.upsert
  cases hkf : c.key_field with
  | none => exact le_refl _
  | some kf =>
    dsimp only
    cases hget : document.get kf with
    | none => exact le_refl _
    | some v =>
      cases v with
      | str doc_id =>
        dsimp only
        cases hl : alistLookup doc_id c.documents with
        | some e => exact le_refl _
        | none => exact insert_next_id_mono _ _ _ _ _
      | null => exact le_refl _
      | bool b => exact le_refl _
      | num n => exact le_refl _
      | arr xs => exact le_refl _
      | obj fs => exact le_refl _

theorem upsert_inserted (c : Collection) (document : Json) (ttl : Option TTL)
    (now : Nat) (u : String) (id : String) (d : Json)
    (h : (c.upsert document ttl now u).1 = .ok (.inserted id d)) :
    (c.insert document ttl now u).1 = .ok (.inserted id d) ∧
      (c.upsert document ttl now u).2 = (c.insert document ttl now u).2 := by
  unfold Collection.upsert at h ⊢
  cases hkf : c.key_field with
  | none => rw [hkf] at h; exact absurd h (by simp)
  | some kf =>
    rw [hkf] at h
    dsimp only at h ⊢
    cases hget : document.get kf with
    | none => rw [hget] at h; exact absurd h (by simp)
    | some v =>
      rw [hget] at h
      cases v with
      | str doc_id =>
        dsimp only at h ⊢
        cases hl : alistLookup doc_id c.documents with
        | some e => rw [hl] at h; exact absurd h (by simp)
        | none => rw [hl] at h; exact ⟨h, rfl⟩
      | null => exact absurd h (by simp)
      | bool b => exact absurd h (by simp)
      | num n => exact absurd h (by simp)
      | arr xs => exact absurd h (by simp)
      | obj fs => exact absurd h (by simp)

theorem update_state (c : Collection) (document : Json) :
    (c.update document).2.key_type = c.key_type ∧
      (c.update document).2.next_id = c.next_id := by
  unfold Collection.update
  cases hkf : c.key_field with
  | none => exact ⟨rfl, rfl⟩
  | some kf =>
    dsimp only
    cases hget : document.get kf with
    | none => exact ⟨rfl, rfl⟩
    | some v =>
      cases v with
      | str doc_id =>
        dsimp only
        cases hl : alistLookup doc_id c.documents with
        | some e => exact ⟨rfl, rfl⟩
        | none => exact ⟨rfl, rfl⟩
      | null => exact ⟨rfl, rfl⟩
      | bool b => exact ⟨rfl, rfl⟩
      | num n => exact ⟨rfl, rfl⟩
      | arr xs => exact ⟨rfl, rfl⟩
      | obj fs => exact ⟨rfl, rfl⟩

theorem delete_state (c : Collection) (key : String) :
    (c.delete key).2.key_type = c.key_type ∧ (c.delete key).2.next_id = c.next_id := by
  unfold Collection.delete
  cases hl : alistLookup key c.documents with
  | some e => exact ⟨rfl, rfl⟩
  | none => exact ⟨rfl, rfl⟩

theorem applyOp_key_type (c : Collection) (op : Op) :
    (applyOp c op).1.key_type = c.key_type := by
  cases op with
  | ins document ttl now u =>
    unfold applyOp
    have := insert_key_type c document ttl now u
    repeat' split <;> simp_all
  | ups document ttl now u =>
    unfold applyOp
    have := upsert_key_type c document ttl now u
    repeat' split <;> simp_all
  | upd document => exact (update_state c document).1
  | del key => exact (delete_state c key).1

theorem applyOp_next_id_mono (c : Collection) (op : Op) :
    c.next_id ≤ (applyOp c op).1.next_id := by
  cases op with
  | ins document ttl now u =>
    unfold applyOp
    have := insert_next_id_mono c document ttl now u
    repeat' split <;> simp_all
  | ups document ttl now u =>
    unfold applyOp
    have := upsert_next_id_mono c document ttl now u
    repeat' split <;> simp_all
  | upd document => exact le_of_eq (update_state c document).2.symm
  | del key => exact le_of_eq (delete_state c key).2.symm

theorem applyOp_gen_id (c : Collection) (op : Op) (hk : c.key_type = KeyType.increment)
    (id : String) (hid : (applyOp c op).2 = some id) :
    id = natToDecimal (c.next_id + 1) ∧ (applyOp c op).1.next_id = c.next_id + 1 := by
  cases op with
  | ins document ttl now u =>
    unfold applyOp at hid ⊢
    dsimp only at hid ⊢
    rcases hc : c.insert document ttl now u with ⟨res, c'⟩
    rw [hc] at hid
    cases res with
    | error e => simp at hid
    | ok r =>
      cases r with
      | inserted id0 d =>
        dsimp only at hid ⊢
        have hid0 : id0 = id := Option.some.inj hid
        have h1 : (c.insert document ttl now u).1 = Except.ok (.inserted id0 d) := by rw [hc]
        have h2 : (c.insert document ttl now u).2 = c' := by rw [hc]
        have hmain := insert_increment_ok c document ttl now u hk id0 d h1
        rw [← hid0, ← h2]
        exact hmain
      | updated a b b2 => simp at hid
      | deleted a b => simp at hid
  | ups document ttl now u =>
    unfold applyOp at hid ⊢
    dsimp only at hid ⊢
    rcases hc : c.upsert document ttl now u with ⟨res, c'⟩
    rw [hc] at hid
    cases res with
    | error e => simp at hid
    | ok r =>
      cases r with
      | inserted id0 d =>
        dsimp only at hid ⊢
        have hid0 : id0 = id := Option.some.inj hid
        have h1 : (c.upsert document ttl now u).1 = Except.ok (.inserted id0 d) := by rw [hc]
        have h2 : (c.upsert document ttl now u).2 = c' := by rw [hc]
        have hu := upsert_inserted c document ttl now u id0 d h1
        have hmain := insert_increment_ok c document ttl now u hk id0 d hu.1
        rw [← hid0, ← h2, hu.2]
        exact hmain
      | updated a b b2 => simp at hid
      | deleted a b => simp at hid
  | upd document => exact absurd hid (by simp [applyOp])
  | del key => exact absurd hid (by simp [applyOp])

theorem runOps_increment_ids : ∀ (ops : List Op) (c : Collection),
    c.key_type = KeyType.increment →
    ∃ ns : List Nat, (runOps c ops).2 = ns.map natToDecimal ∧
      ns.Pairwise (· < ·) ∧ ∀ n ∈ ns, c.next_id < n := by
  intro ops
  induction ops with
  | nil => exact fun c _ => ⟨[], rfl, List.Pairwise.nil, by simp⟩
  | cons op rest ih =>
    intro c hc
    obtain ⟨ns, hmap, hpw, hlb⟩ :=
      ih (applyOp c op).1 (by rw [applyOp_key_type]; exact hc)
    cases hgen : (applyOp c op).2 with
    | none =>
      refine ⟨ns, ?_, hpw, ?_⟩
      · simp [runOps, hgen, hmap]
      · intro n hn
        exact lt_of_le_of_lt (applyOp_next_id_mono c op) (hlb n hn)
    | some id =>
      obtain ⟨hid, hnext⟩ := applyOp_gen_id c op hc id hgen
      refine ⟨(c.next_id + 1) :: ns, ?_, ?_, ?_⟩
      · simp [runOps, hgen, hid, hmap]
      · refine List.Pairwise.cons (fun n hn => ?_) hpw
        have := hlb n hn
        omega
      · intro n hn
        rcases List.mem_cons.1 hn with h1 | h2
        · omega
        · have := hlb n h2
          omega

/-- The uniqueness scan finds a key exactly when some unique field present
on the incoming document carries a value some stored entry also carries —
with no reference whatsoever to the entries' expirations. -/
theorem firstDuplicateKey_isSome (docs : List (String × DocumentEntry))
    (uniqueKeys : List String) (document : Json) :
    (firstDuplicateKey docs uniqueKeys document).isSome = true
      ↔ ∃ k ∈ uniqueKeys, ∃ v, document.get k = some v ∧
          ∃ p ∈ docs, p.2.value.get k = some v := by
  unfold firstDuplicateKey
  rw [List.find?_isSome]
  constructor
  · rintro ⟨k, hk, hpred⟩
    cases hv : document.get k with
    | none => rw [hv] at hpred; exact absurd hpred (by simp)
    | some v =>
      rw [hv] at hpred
      simp only [List.any_eq_true, beq_iff_eq] at hpred
      obtain ⟨p, hp, heq⟩ := hpred
      exact ⟨k, hk, v, hv, p, hp, heq⟩
  · rintro ⟨k, hk, v, hv, p, hp, heq⟩
    refine ⟨k, hk, ?_⟩
    rw [hv]
    simp only [List.any_eq_true, beq_iff_eq]
    exact ⟨p, hp, heq⟩

/-- `update` never touches any entry's expiration: the expiration found
under any key is the same before and after. -/
theorem update_expiration_lookup (c : Collection) (document : Json) (k : String) :
    (alistLookup k (c.update document).2.documents).map DocumentEntry.expiration
      = (alistLookup k c.documents).map DocumentEntry.expiration := by
  unfold Collection.update
  cases hkf : c.key_field with
  | none => rfl
  | some kf =>
    dsimp only
    cases hget : document.get kf with
    | none => rfl
    | some v =>
      cases v with
      | str doc_id =>
        dsimp only
        cases hl : alistLookup doc_id c.documents with
        | some e =>
          dsimp only
          by_cases hk : k = doc_id
          · subst hk
            rw [alistLookup_alistInsert_self, hl]
            rfl
          · rw [alistLookup_alistInsert_ne _ _ _ _ hk]
        | none => rfl
      | null => rfl
      | bool b => rfl
      | num n => rfl
      | arr xs => rfl
      | obj fs => rfl

/-- `upsert` on an existing identity stores the document with the
expiration recomputed from the supplied TTL (absent TTL: no expiration),
regardless of the expiration previously stored. -/
theorem upsert_existing_expiration (c : Collection) (document : Json) (ttl : Option TTL)
    (now : Nat) (u : String) (kf doc_id : String) (entry : DocumentEntry)
    (hkf : c.key_field = some kf) (hget : document.get kf = some (Json.str doc_id))
    (hl : alistLookup doc_id c.documents = some entry) :
    alistLookup doc_id (c.upsert document ttl now u).2.documents
      = some ⟨document, resolveTTL ttl now⟩ := by
  unfold Collection.upsert
  rw [hkf]
  dsimp only
  rw [hget]
  dsimp only
  rw [hl]
  dsimp only
  exact alistLookup_alistInsert_self _ _ _

/-! ### Claim theorems -/

/-- C1: the specification (and its end-to-end test) requires a join on
`("user_id","user_id")`, with a source document `user_id="1"` and target
documents `user_id="1"` and `user_id="2"`, to attach the fields of exactly
the one matching target document. Evaluating `JoinBuilder::execute` on
that input yields the source document with NO `joined_` fields at all:
the target collection is filtered with `eq` against the JSON rendering of
the source value — `"\"1\""`, quotes included — which matches no stored
string, so the matching target is never found. -/
theorem join_execute_string_join_attaches_nothing :
    (((JoinBuilder.new
        ⟨[("1", ⟨Json.obj [("user_id", Json.str "1")], none⟩)],
          some "user_id", KeyType.string, [], 0⟩
        ⟨[("101", ⟨Json.obj [("user_id", Json.str "1"), ("name", Json.str "A")], none⟩),
          ("102", ⟨Json.obj [("user_id", Json.str "2"), ("name", Json.str "B")], none⟩)],
          some "order_id", KeyType.string, [], 0⟩).on "user_id" "user_id").execute
      = [Json.obj [("user_id", Json.str "1")]]) ∧
    (Json.str "1").render = "\"1\"" ∧
    eqFilter "user_id" "\"1\""
      (Json.obj [("user_id", Json.str "1"), ("name", Json.str "A")]) = false :=
  ⟨rfl, rfl, rfl⟩

/-- C2 counterexample: with `unique_fields = {"email"}` the only holder of
`email = "a@x"` is an entry whose expiration (5) is already in the past at
`now = 100`, yet the insert still fails with the duplicate error — the
claim says a value held only by expired entries does not block an
insert. -/
theorem insert_blocked_by_expired_only_holder :
    ((⟨[("1", ⟨Json.obj [("id", Json.str "1"), ("email", Json.str "a@x")], some 5⟩)],
        some "id", KeyType.custom, ["email"], 0⟩ : Collection).insert
      (Json.obj [("id", Json.str "2"), ("email", Json.str "a@x")]) none 100 "u").1
        = .error "Duplicate value for unique key: email" ∧ (5 : Nat) < 100 :=
  ⟨rfl, by omega⟩

/-- C2 (amended): for a collection whose key strategy reads the key from
the document, insert fails with the duplicate-unique-value error exactly
when some unique field present on the incoming document carries a value
that some STILL-PRESENT entry — live or expired, the scan never reads
expirations — also carries; and a failed insert leaves the documents map
unchanged. -/
theorem insert_duplicate_unique_check (c : Collection) (document : Json) (ttl : Option TTL)
    (now : Nat) (u : String) (kf doc_id : String)
    (hkt : c.key_type = KeyType.custom) (hkf : c.key_field = some kf)
    (hget : document.get kf = some (Json.str doc_id)) :
    ((∃ k, (c.insert document ttl now u).1 = .error ("Duplicate value for unique key: " ++ k))
      ↔ ∃ k ∈ c.unique_keys, ∃ v, document.get k = some v ∧
          ∃ p ∈ c.documents, p.2.value.get k = some v) ∧
    ∀ e, (c.insert document ttl now u).1 = .error e →
      (c.insert document ttl now u).2.documents = c.documents := by
  unfold Collection.insert Collection.keyGen
  rw [hkf, hkt]
  dsimp only
  rw [hget]
  dsimp only
  rw [if_neg (by simp)]
  cases hfd : firstDuplicateKey c.documents c.unique_keys document with
  | some k =>
    refine ⟨⟨fun _ => ?_, fun _ => ⟨k, rfl⟩⟩, fun e _ => rfl⟩
    have hs : (firstDuplicateKey c.documents c.unique_keys document).isSome = true := by
      rw [hfd]; rfl
    exact (firstDuplicateKey_isSome _ _ _).mp hs
  | none =>
    refine ⟨⟨fun hex => ?_, fun hrhs => ?_⟩, fun e he => absurd he (by simp)⟩
    · obtain ⟨k, hk⟩ := hex
      exact absurd hk (by simp)
    · have hs := (firstDuplicateKey_isSome c.documents c.unique_keys document).mpr hrhs
      rw [hfd] at hs
      exact absurd hs (by simp)

/-- C2 witness: two sequential inserts with the same email on a fresh
collection with `unique_fields = {"email"}`; the second insert is refused
with the duplicate error. -/
theorem insert_duplicate_unique_check_witness :
    ∃ k, (((⟨[], some "id", KeyType.custom, ["email"], 0⟩ : Collection).insert
        (Json.obj [("id", Json.str "1"), ("email", Json.str "a@x")]) none 0 "u").2.insert
      (Json.obj [("id", Json.str "2"), ("email", Json.str "a@x")]) none 1 "u").1
        = .error ("Duplicate value for unique key: " ++ k) :=
  (insert_duplicate_unique_check
      ((⟨[], some "id", KeyType.custom, ["email"], 0⟩ : Collection).insert
        (Json.obj [("id", Json.str "1"), ("email", Json.str "a@x")]) none 0 "u").2
      (Json.obj [("id", Json.str "2"), ("email", Json.str "a@x")])
      none 1 "u" "id" "2" rfl rfl rfl).1.mpr
    ⟨"email", by decide, Json.str "a@x", rfl,
      ("1", ⟨Json.obj [("id", Json.str "1"), ("email", Json.str "a@x")], none⟩),
      by decide, rfl⟩

/-- C3 counterexample: an entry stored with expiration 50; an upsert on
the same identity WITHOUT a TTL replaces that expiration by `none` — an
operation that is not a TTL-supplying upsert has altered the entry's
expiration, refuting the claim as stated. -/
theorem upsert_without_ttl_clears_expiration :
    (alistLookup "1" ((⟨[("1", ⟨Json.obj [("id", Json.str "1")], some 50⟩)],
          some "id", KeyType.custom, [], 0⟩ : Collection).upsert
        (Json.obj [("id", Json.str "1"), ("x", Json.num 1)]) none 0 "u").2.documents).map
      DocumentEntry.expiration = some none ∧
    (alistLookup "1"
        [("1", (⟨Json.obj [("id", Json.str "1")], some 50⟩ : DocumentEntry))]).map
      DocumentEntry.expiration = some (some 50) :=
  ⟨rfl, rfl⟩

/-- C3 (amended): a plain `update` never alters any entry's expiration,
and an `upsert` on an existing identity always overwrites the expiration
with the resolution of the supplied TTL — so an upsert called without a
TTL clears the expiration rather than leaving it unchanged. -/
theorem update_never_upsert_always_overwrites_expiration
    (c : Collection) (document : Json) (ttl : Option TTL) (now : Nat) (u : String)
    (kf doc_id : String) (entry : DocumentEntry)
    (hkf : c.key_field = some kf) (hget : document.get kf = some (Json.str doc_id))
    (hl : alistLookup doc_id c.documents = some entry) :
    (∀ (d : Json) (k : String),
      (alistLookup k (c.update d).2.documents).map DocumentEntry.expiration
        = (alistLookup k c.documents).map DocumentEntry.expiration) ∧
    alistLookup doc_id (c.upsert document ttl now u).2.documents
      = some ⟨document, resolveTTL ttl now⟩ :=
  ⟨fun d k => update_expiration_lookup c d k,
    upsert_existing_expiration c document ttl now u kf doc_id entry hkf hget hl⟩

/-- C3 witness: on a one-entry collection, an update leaves the stored
expiration 50 in place while a TTL-supplying upsert overwrites it. -/
theorem update_never_upsert_always_overwrites_expiration_witness :
    (alistLookup "1" ((⟨[("1", ⟨Json.obj [("id", Json.str "1")], some 50⟩)],
          some "id", KeyType.custom, [], 0⟩ : Collection).update
        (Json.obj [("id", Json.str "1"), ("y", Json.num 2)])).2.documents).map
      DocumentEntry.expiration
      = (alistLookup "1"
          [("1", (⟨Json.obj [("id", Json.str "1")], some 50⟩ : DocumentEntry))]).map
        DocumentEntry.expiration ∧
    alistLookup "1" ((⟨[("1", ⟨Json.obj [("id", Json.str "1")], some 50⟩)],
          some "id", KeyType.custom, [], 0⟩ : Collection).upsert
        (Json.obj [("id", Json.str "1"), ("y", Json.num 2)])
        (some (TTL.customTTL 10)) 7 "u").2.documents
      = some ⟨Json.obj [("id", Json.str "1"), ("y", Json.num 2)],
          resolveTTL (some (TTL.customTTL 10)) 7⟩ := by
  have h := update_never_upsert_always_overwrites_expiration
    (⟨[("1", ⟨Json.obj [("id", Json.str "1")], some 50⟩)],
      some "id", KeyType.custom, [], 0⟩ : Collection)
    (Json.obj [("id", Json.str "1"), ("y", Json.num 2)])
    (some (TTL.customTTL 10)) 7 "u" "id" "1"
    ⟨Json.obj [("id", Json.str "1")], some 50⟩ rfl rfl rfl
  exact ⟨h.1 (Json.obj [("id", Json.str "1"), ("y", Json.num 2)]) "1", h.2⟩

/-- C4: `execute` always returns the computed sequence as an `Ok` value
(with an empty invocation log), but a success callback registered through
`on_success` is NEVER invoked: the body of `execute` contains no call to
it, refuting the claim (and the spec) that the observer is invoked after
the result is computed. -/
theorem execute_ok_but_success_callback_never_invoked :
    (∀ qb : QueryBuilder, ∃ docs, qb.execute = (.ok docs, [])) ∧
    ((QueryBuilder.new ⟨[("1", ⟨Json.obj [("a", Json.num 1)], none⟩)],
        some "a", KeyType.string, [], 0⟩).on_success 7).success_callback = some 7 ∧
    ((QueryBuilder.new ⟨[("1", ⟨Json.obj [("a", Json.num 1)], none⟩)],
        some "a", KeyType.string, [], 0⟩).on_success 7).execute
      = (.ok [Json.obj [("a", Json.num 1)]], []) :=
  ⟨fun _q => ⟨_, rfl⟩, rfl, rfl⟩

/-- C5: expiration is enforced only on the direct-lookup path: a `get` on
an entry whose expiration lies strictly in the past removes the entry and
returns absent, while `QueryBuilder::execute` visits every stored entry
without consulting expirations, so an expired-but-not-yet-looked-up entry
stays resident and visible to query results. -/
theorem expiration_enforced_only_on_lookup (lc : LibCollection) (id : String)
    (entry : DocumentEntry) (t now : Nat)
    (hlook : alistLookup id lc.documents = some entry)
    (hexp : entry.expiration = some t) (ht : t < now) :
    ((lc.get id now).1 = none ∧
      (lc.get id now).2.documents = (alistRemove id lc.documents).2) ∧
    ∀ col : Collection, ((QueryBuilder.new col).execute).1
      = .ok (col.documents.map fun p => p.2.value) := by
  constructor
  · unfold LibCollection.get
    rw [hlook]
    dsimp only
    rw [hexp]
    dsimp only
    rw [if_pos ht]
    exact ⟨rfl, rfl⟩
  · intro col
    have h1 : (QueryBuilder.new col).execute = ((QueryBuilder.new col).select []).execute := rfl
    rw [h1, execute_new_select]
    simp

/-- C5 witness: a lib-collection entry expired at time 5 is evicted and
reported absent by a lookup at time 100, while a query over a db
collection holding an entry expired at time 5 still returns it at any
time. -/
theorem expiration_enforced_only_on_lookup_witness :
    (((⟨[("1", ⟨Json.obj [("a", Json.num 1)], some 5⟩)]⟩ : LibCollection).get "1" 100).1
        = none ∧
      ((⟨[("1", ⟨Json.obj [("a", Json.num 1)], some 5⟩)]⟩ : LibCollection).get "1"
          100).2.documents
        = (alistRemove "1"
            [("1", (⟨Json.obj [("a", Json.num 1)], some 5⟩ : DocumentEntry))]).2) ∧
    ((QueryBuilder.new (⟨[("2", ⟨Json.obj [("b", Json.num 2)], some 5⟩)],
        some "b", KeyType.string, [], 0⟩ : Collection)).execute).1
      = .ok [Json.obj [("b", Json.num 2)]] := by
  have h := expiration_enforced_only_on_lookup
    (⟨[("1", ⟨Json.obj [("a", Json.num 1)], some 5⟩)]⟩ : LibCollection) "1"
    ⟨Json.obj [("a", Json.num 1)], some 5⟩ 5 100 rfl rfl (by omega)
  refine ⟨h.1, ?_⟩
  rw [h.2 (⟨[("2", ⟨Json.obj [("b", Json.num 2)], some 5⟩)],
    some "b", KeyType.string, [], 0⟩ : Collection)]
  rfl

/-- C6: under the Increment strategy, the identities produced by the
successful inserts of any operation sequence are the decimal renderings
of a strictly increasing list of integers — hence pairwise distinct —
and `next_id` never decreases under any operation. -/
theorem increment_ids_strictly_increasing (c : Collection) (ops : List Op)
    (h : c.key_type = KeyType.increment) :
    (∃ ns : List Nat, (runOps c ops).2 = ns.map natToDecimal ∧ ns.Pairwise (· < ·)) ∧
    (runOps c ops).2.Pairwise (· ≠ ·) ∧
    ∀ (c2 : Collection) (op : Op), c2.next_id ≤ (applyOp c2 op).1.next_id := by
  obtain ⟨ns, hmap, hpw, hlb⟩ := runOps_increment_ids ops c h
  refine ⟨⟨ns, hmap, hpw⟩, ?_, fun c2 op => applyOp_next_id_mono c2 op⟩
  rw [hmap]
  refine List.Pairwise.map _ (fun a b hab => ?_) hpw
  exact fun hEq => Nat.ne_of_lt hab (natToDecimal_injective hEq)

/-- C6 witness: two inserts on a fresh Increment collection generate the
identities "1" and "2"; the theorem applied there yields the strictly
increasing numeric rendering and distinctness. -/
theorem increment_ids_strictly_increasing_witness :
    (∃ ns : List Nat,
      (runOps (⟨[], some "id", KeyType.increment, [], 0⟩ : Collection)
        [Op.ins (Json.obj [("x", Json.num 1)]) none 0 "u1",
          Op.ins (Json.obj [("x", Json.num 2)]) none 0 "u2"]).2 = ns.map natToDecimal ∧
      ns.Pairwise (· < ·)) ∧
    (runOps (⟨[], some "id", KeyType.increment, [], 0⟩ : Collection)
        [Op.ins (Json.obj [("x", Json.num 1)]) none 0 "u1",
          Op.ins (Json.obj [("x", Json.num 2)]) none 0 "u2"]).2.Pairwise (· ≠ ·) ∧
    (runOps (⟨[], some "id", KeyType.increment, [], 0⟩ : Collection)
        [Op.ins (Json.obj [("x", Json.num 1)]) none 0 "u1",
          Op.ins (Json.obj [("x", Json.num 2)]) none 0 "u2"]).2 = ["1", "2"] := by
  have h := increment_ids_strictly_increasing
    (⟨[], some "id", KeyType.increment, [], 0⟩ : Collection)
    [Op.ins (Json.obj [("x", Json.num 1)]) none 0 "u1",
      Op.ins (Json.obj [("x", Json.num 2)]) none 0 "u2"] rfl
  exact ⟨h.1, h.2.1, rfl⟩

/-- C7: with an `"*"` or empty selection every matching document is
returned whole; a non-empty selection yields a fresh document carrying
exactly those selected top-level fields present on the source document,
silently omitting selected fields the source lacks. -/
theorem execute_projection_spec (col : Collection) (fieldsSpec : List String)
    (hne : fieldsSpec ≠ []) :
    ((col.select "*").execute).1 = .ok (col.documents.map fun p => p.2.value) ∧
    ((col.select "").execute).1 = .ok (col.documents.map fun p => p.2.value) ∧
    (((QueryBuilder.new col).select fieldsSpec).execute).1
      = .ok (col.documents.map fun p => selectDoc fieldsSpec p.2.value) ∧
    ∀ (d : Json) (k : String),
      (selectDoc fieldsSpec d).get k = if k ∈ fieldsSpec then d.get k else none := by
  have hstar : col.select "*" = (QueryBuilder.new col).select [] := by
    unfold Collection.select
    rw [if_pos (Or.inl rfl)]
  have hempty : col.select "" = (QueryBuilder.new col).select [] := by
    unfold Collection.select
    rw [if_pos (Or.inr (Or.inl rfl))]
  have hne2 : fieldsSpec.isEmpty = false := by
    cases fieldsSpec with
    | nil => exact absurd rfl hne
    | cons a l => rfl
  refine ⟨?_, ?_, ?_, fun d k => selectDoc_get d fieldsSpec k⟩
  · rw [hstar, execute_new_select]; simp
  · rw [hempty, execute_new_select]; simp
  · rw [execute_new_select]; simp [hne2]

/-- C7 witness: projecting `["name","age"]` over a collection holding
`{"name":"Bob","age":25,"score":92}` yields exactly
`{"name":"Bob","age":25}`, and the star selection returns the document
whole. -/
theorem execute_projection_spec_witness :
    (((⟨[("Bob", ⟨Json.obj [("name", Json.str "Bob"), ("age", Json.num 25),
          ("score", Json.num 92)], none⟩)],
        some "name", KeyType.string, [], 0⟩ : Collection).select "*").execute).1
      = .ok [Json.obj [("name", Json.str "Bob"), ("age", Json.num 25),
          ("score", Json.num 92)]] ∧
    ((((QueryBuilder.new (⟨[("Bob", ⟨Json.obj [("name", Json.str "Bob"),
          ("age", Json.num 25), ("score", Json.num 92)], none⟩)],
        some "name", KeyType.string, [], 0⟩ : Collection)).select
          ["name", "age"]).execute).1
      = .ok [selectDoc ["name", "age"]
          (Json.obj [("name", Json.str "Bob"), ("age", Json.num 25),
            ("score", Json.num 92)])]) ∧
    selectDoc ["name", "age"]
        (Json.obj [("name", Json.str "Bob"), ("age", Json.num 25),
          ("score", Json.num 92)])
      = Json.obj [("name", Json.str "Bob"), ("age", Json.num 25)] := by
  have h := execute_projection_spec
    (⟨[("Bob", ⟨Json.obj [("name", Json.str "Bob"), ("age", Json.num 25),
        ("score", Json.num 92)], none⟩)],
      some "name", KeyType.string, [], 0⟩ : Collection)
    ["name", "age"] (by simp)
  exact ⟨h.1, h.2.2.1, rfl⟩

/-- C9: with no `key_field` configured, insert, upsert and update all fail
with the key-field error, for every key strategy — the check precedes key
generation even under Increment and UUID. -/
theorem no_key_field_all_mutations_fail (c : Collection) (document : Json)
    (ttl : Option TTL) (now : Nat) (u : String) (h : c.key_field = none) :
    (c.insert document ttl now u).1 = .error "Key field is not set." ∧
    (c.upsert document ttl now u).1 = .error "Key field is not set." ∧
    (c.update document).1 = .error "Key field is not set." := by
  unfold Collection.insert Collection.upsert Collection.update
  rw [h]
  exact ⟨rfl, rfl, rfl⟩

/-- C9 witness: an Increment-strategy collection without a key field
refuses all three mutations. -/
theorem no_key_field_all_mutations_fail_witness :
    ((⟨[], none, KeyType.increment, [], 0⟩ : Collection).insert
        (Json.obj [("x", Json.num 1)]) none 0 "u").1
      = .error "Key field is not set." ∧
    ((⟨[], none, KeyType.increment, [], 0⟩ : Collection).upsert
        (Json.obj [("x", Json.num 1)]) none 0 "u").1
      = .error "Key field is not set." ∧
    ((⟨[], none, KeyType.increment, [], 0⟩ : Collection).update
        (Json.obj [("x", Json.num 1)])).1
      = .error "Key field is not set." :=
  no_key_field_all_mutations_fail (⟨[], none, KeyType.increment, [], 0⟩ : Collection)
    (Json.obj [("x", Json.num 1)]) none 0 "u" rfl

/-- C10: the `eq` and `neq` predicates treat a missing field
asymmetrically — `eq` excludes a document lacking the field while `neq`
includes it — and on a field whose value is neither a number nor a string
(null, boolean, array, object) `eq` yields false and `neq` yields
true. -/
theorem eq_neq_missing_and_nonscalar (doc : Json) (key value : String) :
    (doc.get key = none →
      eqFilter key value doc = false ∧ neqFilter key value doc = true) ∧
    ∀ v, doc.get key = some v → (∀ n, v ≠ Json.num n) → (∀ s, v ≠ Json.str s) →
      eqFilter key value doc = false ∧ neqFilter key value doc = true := by
  constructor
  · intro h
    unfold eqFilter neqFilter
    rw [h]
    exact ⟨rfl, rfl⟩
  · intro v hv hn hs
    unfold eqFilter neqFilter
    rw [hv]
    cases v with
    | num n2 => exact absurd rfl (hn n2)
    | str sv => exact absurd rfl (hs sv)
    | null => exact ⟨rfl, rfl⟩
    | bool b => exact ⟨rfl, rfl⟩
    | arr xs => exact ⟨rfl, rfl⟩
    | obj fs => exact ⟨rfl, rfl⟩

/-- C10 witness: on `{"b":1,"c":null}`, filtering on the missing field
"a" gives eq false / neq true, and filtering on the null-valued field "c"
also gives eq false / neq true. -/
theorem eq_neq_missing_and_nonscalar_witness :
    (eqFilter "a" "x" (Json.obj [("b", Json.num 1), ("c", Json.null)]) = false ∧
      neqFilter "a" "x" (Json.obj [("b", Json.num 1), ("c", Json.null)]) = true) ∧
    (eqFilter "c" "x" (Json.obj [("b", Json.num 1), ("c", Json.null)]) = false ∧
      neqFilter "c" "x" (Json.obj [("b", Json.num 1), ("c", Json.null)]) = true) :=
  ⟨(eq_neq_missing_and_nonscalar (Json.obj [("b", Json.num 1), ("c", Json.null)])
      "a" "x").1 rfl,
    (eq_neq_missing_and_nonscalar (Json.obj [("b", Json.num 1), ("c", Json.null)])
      "c" "x").2 Json.null rfl (fun _ h => Json.noConfusion h)
      (fun _ h => Json.noConfusion h)⟩

/-- C8: whenever `insert` returns an error, the documents map is
unchanged; moreover under the Increment strategy with a key field set,
every possible insert error IS the duplicate-unique-value error, and the
counter was already bumped before the uniqueness check — the failed
insert permanently consumes one identity. -/
theorem insert_error_leaves_documents_unchanged (c : Collection) (document : Json)
    (ttl : Option TTL) (now : Nat) (u : String) (e : String)
    (h : (c.insert document ttl now u).1 = .error e) :
    (c.insert document ttl now u).2.documents = c.documents ∧
    (c.key_type = KeyType.increment → c.key_field.isSome = true →
      (∃ k, e = "Duplicate value for unique key: " ++ k) ∧
      (c.insert document ttl now u).2.next_id = c.next_id + 1) := by
  unfold Collection.insert Collection.keyGen at h ⊢
  cases hkf : c.key_field with
  | none =>
    refine ⟨rfl, fun _ hs => absurd hs (by simp)⟩
  | some kf =>
    rw [hkf] at h
    dsimp only at h ⊢
    cases hkt : c.key_type with
    | increment =>
      rw [hkt] at h
      dsimp only at h ⊢
      rw [if_pos (Or.inl rfl)] at h ⊢
      split at h
      · next k heq =>
        simp only [Except.error.injEq] at h
        exact ⟨rfl, fun _ _ => ⟨⟨k, h.symm⟩, rfl⟩⟩
      · exact absurd h (by simp)
    | uuid =>
      rw [hkt] at h
      dsimp only at h ⊢
      rw [if_pos (Or.inr rfl)] at h ⊢
      split at h
      · next k heq =>
        exact ⟨rfl, fun hinc _ => absurd hinc (by simp)⟩
      · exact absurd h (by simp)
    | string =>
      rw [hkt] at h
      dsimp only at h ⊢
      cases hget : document.get kf with
      | none =>
        exact ⟨rfl, fun hinc _ => absurd hinc (by simp)⟩
      | some v =>
        rw [hget] at h
        cases v with
        | str sv =>
          dsimp only at h ⊢
          rw [if_neg (by simp)] at h ⊢
          split at h
          · next k heq =>
            exact ⟨rfl, fun hinc _ => absurd hinc (by simp)⟩
          · exact absurd h (by simp)
        | null => exact ⟨rfl, fun hinc _ => absurd hinc (by simp)⟩
        | bool b => exact ⟨rfl, fun hinc _ => absurd hinc (by simp)⟩
        | num nv => exact ⟨rfl, fun hinc _ => absurd hinc (by simp)⟩
        | arr xs => exact ⟨rfl, fun hinc _ => absurd hinc (by simp)⟩
        | obj fs => exact ⟨rfl, fun hinc _ => absurd hinc (by simp)⟩
    | custom =>
      rw [hkt] at h
      dsimp only at h ⊢
      cases hget : document.get kf with
      | none =>
        exact ⟨rfl, fun hinc _ => absurd hinc (by simp)⟩
      | some v =>
        rw [hget] at h
        cases v with
        | str sv =>
          dsimp only at h ⊢
          rw [if_neg (by simp)] at h ⊢
          split at h
          · next k heq =>
            exact ⟨rfl, fun hinc _ => absurd hinc (by simp)⟩
          · exact absurd h (by simp)
        | null => exact ⟨rfl, fun hinc _ => absurd hinc (by simp)⟩
        | bool b => exact ⟨rfl, fun hinc _ => absurd hinc (by simp)⟩
        | num nv => exact ⟨rfl, fun hinc _ => absurd hinc (by simp)⟩
        | arr xs => exact ⟨rfl, fun hinc _ => absurd hinc (by simp)⟩
        | obj fs => exact ⟨rfl, fun hinc _ => absurd hinc (by simp)⟩

/-- C8 witness: an Increment collection at counter 1 with
`unique_fields = {"email"}` and one stored entry; inserting another
document with the same email fails with the duplicate error, leaves the
documents map as it was, and has consumed identity 2. -/
theorem insert_error_leaves_documents_unchanged_witness :
    ((⟨[("1", ⟨Json.obj [("id", Json.str "1"), ("email", Json.str "a")], none⟩)],
        some "id", KeyType.increment, ["email"], 1⟩ : Collection).insert
      (Json.obj [("email", Json.str "a")]) none 0 "u").2.documents
        = [("1", ⟨Json.obj [("id", Json.str "1"), ("email", Json.str "a")], none⟩)] ∧
    ((∃ k, "Duplicate value for unique key: email"
        = "Duplicate value for unique key: " ++ k) ∧
      ((⟨[("1", ⟨Json.obj [("id", Json.str "1"), ("email", Json.str "a")], none⟩)],
          some "id", KeyType.increment, ["email"], 1⟩ : Collection).insert
        (Json.obj [("email", Json.str "a")]) none 0 "u").2.next_id = 2) := by
  have h := insert_error_leaves_documents_unchanged
    (⟨[("1", ⟨Json.obj [("id", Json.str "1"), ("email", Json.str "a")], none⟩)],
      some "id", KeyType.increment, ["email"], 1⟩ : Collection)
    (Json.obj [("email", Json.str "a")]) none 0 "u"
    "Duplicate value for unique key: email" rfl
  exact ⟨h.1, h.2 rfl rfl⟩

end Ememdb
